import Mathlib

/-!
Shallow embedding of the Bid2Ship backend (`backend/server.py`), a reverse
auction marketplace.  The MongoDB collections become lists in a `Store`
record; each FastAPI handler becomes a function from the store (plus the
authenticated caller and the request body) to `Except HTTPError result`,
threading the updated store through the `ok` branch.  Every `raise
HTTPException` in the source occurs before any database write, so a
returned `error` leaves the store untouched by construction, exactly as in
the source.  Nondeterministic inputs of the handlers (fresh UUIDs, the
server clock, the random salt) become explicit parameters, and the
PBKDF2-HMAC key-derivation function from Python's `hashlib` (external
library code, not part of this repository) is an explicit function
parameter `pbkdf2 : String → String → String` taking the password and the
salt.  Timestamps are naturals; monetary amounts are positive reals in the
data model and only their ordering is ever used, so they are naturals here.
-/

deriving instance DecidableEq for Except

namespace Bid2Ship

/-- Mirrors `class UserRole(str, Enum)`. -/
inductive UserRole where
  | shipper
  | driver
deriving DecidableEq, Repr

/-- Mirrors `class ShipmentStatus(str, Enum)`. -/
inductive ShipmentStatus where
  | posted
  | bidding_closed
  | in_transit
  | delivered
deriving DecidableEq, Repr

/-- Mirrors `class BidStatus(str, Enum)`. -/
inductive BidStatus where
  | pending
  | accepted
  | rejected
deriving DecidableEq, Repr

/-- Mirrors `fastapi.HTTPException(status_code=..., detail=...)`. -/
structure HTTPError where
  status_code : Nat
  detail : String
deriving DecidableEq, Repr

/-- Mirrors the `User` pydantic model (the stored record, credential included). -/
structure User where
  id : String
  email : String
  name : String
  phone : String
  role : UserRole
  company_name : Option String := none
  password_hash : Option String := none
  created_at : Nat
deriving DecidableEq, Repr

/-- Mirrors the `UserResponse` pydantic model: the profile returned to
clients, with no `password_hash` field. -/
structure UserResponse where
  id : String
  email : String
  name : String
  phone : String
  role : UserRole
  company_name : Option String := none
  created_at : Nat
deriving DecidableEq, Repr

/-- Mirrors `UserResponse(**{k: v for k, v in user.dict().items() if k != 'password_hash'})`. -/
def UserResponse.of (u : User) : UserResponse :=
  { id := u.id, email := u.email, name := u.name, phone := u.phone,
    role := u.role, company_name := u.company_name, created_at := u.created_at }

/-- Mirrors the `Shipment` pydantic model. -/
structure Shipment where
  id : String
  shipper_id : String
  origin_city : String
  destination_city : String
  description : String
  weight : Nat
  deadline : Nat
  price_range : Option String := none
  status : ShipmentStatus := ShipmentStatus.posted
  created_at : Nat
deriving DecidableEq, Repr

/-- Mirrors the `ShipmentCreate` request body. -/
structure ShipmentCreate where
  origin_city : String
  destination_city : String
  description : String
  weight : Nat
  deadline : Nat
  price_range : Option String := none
deriving DecidableEq, Repr

/-- Mirrors the `Bid` pydantic model. -/
structure Bid where
  id : String
  driver_id : String
  shipment_id : String
  amount : Nat
  message : Option String := none
  status : BidStatus := BidStatus.pending
  created_at : Nat
deriving DecidableEq, Repr

/-- Mirrors the `BidCreate` request body. -/
structure BidCreate where
  shipment_id : String
  amount : Nat
  message : Option String := none
deriving DecidableEq, Repr

/-- Mirrors the `ShipmentWithBids` response model. -/
structure ShipmentWithBids where
  shipment : Shipment
  bids : List Bid
  bid_count : Nat
deriving DecidableEq, Repr

/-- The three MongoDB collections (`db.users`, `db.shipments`, `db.bids`),
in insertion order: `insert_one` appends at the end and `find_one` returns
the first match. -/
structure Store where
  users : List User
  shipments : List Shipment
  bids : List Bid
deriving DecidableEq, Repr

/-- Mongo `update_one(filter, {"$set": ...})`: rewrite the first element
matching `p` with `f`, leave the rest alone. -/
def updateFirst (p : α → Bool) (f : α → α) : List α → List α
  | [] => []
  | x :: xs => if p x then f x :: xs else x :: updateFirst p f xs

/-- Python `str.split(':')` at the character level: the groups between the
colons, in order.  A string with `n` colons yields `n + 1` groups. -/
def splitColonChars : List Char → List (List Char)
  | [] => [[]]
  | c :: cs =>
    match splitColonChars cs with
    | [] => [[]]
    | g :: gs => if c = ':' then [] :: g :: gs else (c :: g) :: gs

/-- Python `hashed.split(':')` on a `String`. -/
def splitColon (s : String) : List String :=
  (splitColonChars s.toList).map List.asString

/-- Mirrors `hash_password`: derive the credential from the password and the
(randomly generated, here explicit) salt, stored as `f"{salt}:{hashed.hex()}"`. -/
def hash_password (pbkdf2 : String → String → String) (password salt : String) : String :=
  salt ++ ":" ++ pbkdf2 password salt

/-- Mirrors `verify_password`: split the stored credential on `:` into salt
and hex hash, recompute, compare.  The bare `except: return False` of the
source corresponds to the catch-all branch: any split that does not produce
exactly two parts yields `false`. -/
def verify_password (pbkdf2 : String → String → String) (password hashed : String) : Bool :=
  match splitColon hashed with
  | [salt, hash_hex] => hash_hex == pbkdf2 password salt
  | _ => false

/-- The call `verify_password(password, user_data["password_hash"])` when the
stored field may be `None`: `None.split` raises `AttributeError`, caught by
the bare `except`, so the result is `False`. -/
def verify_stored (pbkdf2 : String → String → String) (password : String) :
    Option String → Bool
  | some h => verify_password pbkdf2 password h
  | none => false

/-- Mirrors `get_current_user`: per-request basic-auth check.  Looks the user
up by email and verifies the password, answering 401 otherwise. -/
def get_current_user (db : Store) (pbkdf2 : String → String → String)
    (username password : String) : Except HTTPError User :=
  match db.users.find? (fun u => u.email == username) with
  | none => Except.error ⟨401, "Invalid credentials"⟩
  | some user_data =>
    if verify_stored pbkdf2 password user_data.password_hash then
      Except.ok user_data
    else
      Except.error ⟨401, "Invalid credentials"⟩

/-- Mirrors the `UserCreate` request body. -/
structure UserCreate where
  email : String
  password : String
  name : String
  phone : String
  role : UserRole
  company_name : Option String := none
deriving DecidableEq, Repr

/-- Mirrors `register_user`: reject a taken email with 400, otherwise store
the new user with the salted credential and return the profile without the
credential.  `salt`, `fresh_id` and `now` are the nondeterministic inputs
(random salt, `uuid.uuid4()`, server clock) made explicit. -/
def register_user (db : Store) (pbkdf2 : String → String → String)
    (user_data : UserCreate) (salt fresh_id : String) (now : Nat) :
    Except HTTPError (UserResponse × Store) :=
  match db.users.find? (fun u => u.email == user_data.email) with
  | some _ => Except.error ⟨400, "Email already registered"⟩
  | none =>
    let user_obj : User :=
      { id := fresh_id, email := user_data.email, name := user_data.name,
        phone := user_data.phone, role := user_data.role,
        company_name := user_data.company_name,
        password_hash := some (hash_password pbkdf2 user_data.password salt),
        created_at := now }
    Except.ok (UserResponse.of user_obj, { db with users := db.users ++ [user_obj] })

/-- Mirrors `login_user`: 401 when the email is unknown or the password does
not verify against the stored credential; otherwise the confirmation message
and the profile without the credential. -/
def login_user (db : Store) (pbkdf2 : String → String → String)
    (email password : String) : Except HTTPError (String × UserResponse) :=
  match db.users.find? (fun u => u.email == email) with
  | none => Except.error ⟨401, "Invalid credentials"⟩
  | some user_data =>
    if verify_stored pbkdf2 password user_data.password_hash then
      Except.ok ("Login successful", UserResponse.of user_data)
    else
      Except.error ⟨401, "Invalid credentials"⟩

/-- Mirrors `create_shipment`: shipper-only; stores a new shipment with
status `posted`, the caller as owner, a fresh identifier and the server
timestamp. -/
def create_shipment (db : Store) (current_user : User)
    (shipment_data : ShipmentCreate) (fresh_id : String) (now : Nat) :
    Except HTTPError (Shipment × Store) :=
  if current_user.role ≠ UserRole.shipper then
    Except.error ⟨403, "Only shippers can create shipments"⟩
  else
    let shipment_obj : Shipment :=
      { id := fresh_id, shipper_id := current_user.id,
        origin_city := shipment_data.origin_city,
        destination_city := shipment_data.destination_city,
        description := shipment_data.description,
        weight := shipment_data.weight, deadline := shipment_data.deadline,
        price_range := shipment_data.price_range,
        status := ShipmentStatus.posted, created_at := now }
    Except.ok (shipment_obj, { db with shipments := db.shipments ++ [shipment_obj] })

/-- Sort key of `.sort("created_at", -1)`: creation timestamp descending. -/
def createdDesc (a b : Shipment) : Prop := b.created_at ≤ a.created_at

instance : DecidableRel createdDesc := fun _ _ => Nat.decLe _ _

instance : IsTotal Shipment createdDesc :=
  ⟨fun a b => Nat.le_total b.created_at a.created_at⟩

instance : IsTrans Shipment createdDesc :=
  ⟨fun _ _ _ h h' => Nat.le_trans h' h⟩

/-- Sort key of `.sort("amount", 1)`: bid amount ascending. -/
def amountAsc (a b : Bid) : Prop := a.amount ≤ b.amount

instance : DecidableRel amountAsc := fun _ _ => Nat.decLe _ _

instance : IsTotal Bid amountAsc := ⟨fun a b => Nat.le_total a.amount b.amount⟩

instance : IsTrans Bid amountAsc := ⟨fun _ _ _ h h' => Nat.le_trans h h'⟩

/-- Mirrors `get_shipments`: public listing, optional status filter, sorted
by creation timestamp descending, `to_list(100)` cap. -/
def get_shipments (db : Store) (status : Option ShipmentStatus) : List Shipment :=
  let query : Shipment → Bool := fun s =>
    match status with
    | none => true
    | some st => s.status == st
  (((db.shipments.filter query).insertionSort createdDesc).take 100)

/-- Mirrors `get_shipment`: 404 when absent, otherwise the shipment with its
bids sorted by amount ascending (`to_list(100)` cap) and their count. -/
def get_shipment (db : Store) (shipment_id : String) :
    Except HTTPError ShipmentWithBids :=
  match db.shipments.find? (fun s => s.id == shipment_id) with
  | none => Except.error ⟨404, "Shipment not found"⟩
  | some shipment =>
    let bids :=
      (((db.bids.filter (fun b => b.shipment_id == shipment_id)).insertionSort
        amountAsc).take 100)
    Except.ok ⟨shipment, bids, bids.length⟩

/-- Mirrors `create_bid`: driver-only; the shipment must exist, be `posted`,
and carry no previous bid by this driver; on success stores a new `pending`
bid with a fresh identifier and the server timestamp. -/
def create_bid (db : Store) (current_user : User) (bid_data : BidCreate)
    (fresh_id : String) (now : Nat) : Except HTTPError (Bid × Store) :=
  if current_user.role ≠ UserRole.driver then
    Except.error ⟨403, "Only drivers can place bids"⟩
  else
    match db.shipments.find? (fun s => s.id == bid_data.shipment_id) with
    | none => Except.error ⟨404, "Shipment not found"⟩
    | some shipment_data =>
      if shipment_data.status ≠ ShipmentStatus.posted then
        Except.error ⟨400, "Shipment is not open for bidding"⟩
      else
        match db.bids.find? (fun b =>
            b.driver_id == current_user.id && b.shipment_id == bid_data.shipment_id) with
        | some _ =>
          Except.error ⟨400, "You have already placed a bid on this shipment"⟩
        | none =>
          let bid_obj : Bid :=
            { id := fresh_id, driver_id := current_user.id,
              shipment_id := bid_data.shipment_id, amount := bid_data.amount,
              message := bid_data.message, status := BidStatus.pending,
              created_at := now }
          Except.ok (bid_obj, { db with bids := db.bids ++ [bid_obj] })

/-- Mirrors `accept_bid`: shipper-only; looks up the bid (404 if absent),
checks in one condition that the bid's shipment exists and belongs to the
caller (403 otherwise), then sets the bid `accepted`, every other bid on the
same shipment `rejected`, and the shipment `bidding_closed`. -/
def accept_bid (db : Store) (current_user : User) (bid_id : String) :
    Except HTTPError (String × Store) :=
  if current_user.role ≠ UserRole.shipper then
    Except.error ⟨403, "Only shippers can accept bids"⟩
  else
    match db.bids.find? (fun b => b.id == bid_id) with
    | none => Except.error ⟨404, "Bid not found"⟩
    | some bid_data =>
      match db.shipments.find? (fun s => s.id == bid_data.shipment_id) with
      | none => Except.error ⟨403, "You can only accept bids on your own shipments"⟩
      | some shipment_data =>
        if shipment_data.shipper_id ≠ current_user.id then
          Except.error ⟨403, "You can only accept bids on your own shipments"⟩
        else
          let bids1 := updateFirst (fun b => b.id == bid_id)
            (fun b => { b with status := BidStatus.accepted }) db.bids
          let bids2 := bids1.map (fun b =>
            if b.shipment_id == bid_data.shipment_id && b.id != bid_id then
              { b with status := BidStatus.rejected }
            else b)
          let shipments1 := updateFirst (fun s => s.id == bid_data.shipment_id)
            (fun s => { s with status := ShipmentStatus.bidding_closed }) db.shipments
          Except.ok ("Bid accepted successfully",
            { db with shipments := shipments1, bids := bids2 })

/-!  Generic lemmas about the Mongo-style list operations.  -/

theorem key_eq_of_nodup {α κ : Type} (key : α → κ) {l : List α} (hn : (l.map key).Nodup)
    {x y : α} (hx : x ∈ l) (hy : y ∈ l) (hk : key x = key y) : x = y := by
  induction l with
  | nil => cases hx
  | cons a t ih =>
    rw [List.map_cons, List.nodup_cons] at hn
    rcases List.mem_cons.mp hx with rfl | hx' <;>
      rcases List.mem_cons.mp hy with rfl | hy'
    · rfl
    · exact absurd (hk ▸ List.mem_map_of_mem key hy') hn.1
    · exact absurd (hk ▸ List.mem_map_of_mem key hx') hn.1
    · exact ih hn.2 hx' hy'

theorem find?_key_eq {α κ : Type} [BEq κ] [LawfulBEq κ] (key : α → κ) (k : κ)
    {l : List α} (hn : (l.map key).Nodup)
    {x : α} (hx : x ∈ l) (hk : key x = k) :
    l.find? (fun y => key y == k) = some x := by
  induction l with
  | nil => cases hx
  | cons a t ih =>
    rw [List.map_cons, List.nodup_cons] at hn
    rcases List.mem_cons.mp hx with rfl | hx'
    · simp [List.find?_cons, hk]
    · have hne : key a ≠ k := fun h =>
        hn.1 (h.trans hk.symm ▸ List.mem_map_of_mem key hx')
      simp only [List.find?_cons, beq_eq_false_iff_ne.mpr hne]
      exact ih hn.2 hx'

theorem mem_updateFirst_of_unique {α : Type} (p : α → Bool) (f : α → α) {l : List α} {x : α}
    (hx : x ∈ l) (hpx : p x = true)
    (huniq : ∀ y ∈ l, p y = true → y = x) :
    f x ∈ updateFirst p f l := by
  induction l with
  | nil => cases hx
  | cons a t ih =>
    by_cases hpa : p a = true
    · have : a = x := huniq a (List.mem_cons_self a t) hpa
      subst this
      simp [updateFirst, hpa]
    · have hxa : x ≠ a := fun h => hpa (h ▸ hpx)
      have hxt : x ∈ t := (List.mem_cons.mp hx).resolve_left hxa
      rw [updateFirst, if_neg hpa]
      exact List.mem_cons_of_mem a
        (ih hxt fun y hy hpy => huniq y (List.mem_cons_of_mem a hy) hpy)

/-!  Lemmas about the character-level model of Python's `split(':')`.  -/

theorem splitColonChars_ne_nil : ∀ cs : List Char, splitColonChars cs ≠ []
  | [] => by simp [splitColonChars]
  | c :: cs => by
    have h := splitColonChars_ne_nil cs
    rw [splitColonChars]
    match hm : splitColonChars cs with
    | [] => exact absurd hm h
    | g :: gs => by_cases hc : c = ':' <;> simp [hc]

theorem splitColonChars_no_colon : ∀ {cs : List Char}, ':' ∉ cs →
    splitColonChars cs = [cs]
  | [], _ => rfl
  | c :: cs, h => by
    simp only [List.mem_cons, not_or] at h
    obtain ⟨h1, h2⟩ := h
    have hc : ¬ c = ':' := fun hx => h1 hx.symm
    rw [splitColonChars, splitColonChars_no_colon h2]
    simp [hc]

theorem splitColonChars_append {s : List Char} (t : List Char) (hs : ':' ∉ s) :
    splitColonChars (s ++ ':' :: t) = s :: splitColonChars t := by
  induction s with
  | nil =>
    rw [List.nil_append, splitColonChars]
    match hm : splitColonChars t with
    | [] => exact absurd hm (splitColonChars_ne_nil t)
    | g :: gs => simp
  | cons c cs ih =>
    simp only [List.mem_cons, not_or] at hs
    obtain ⟨h1, h2⟩ := hs
    have hc : ¬ c = ':' := fun hx => h1 hx.symm
    rw [List.cons_append, splitColonChars, ih h2]
    simp [hc]

theorem splitColonChars_length : ∀ cs : List Char,
    (splitColonChars cs).length = cs.count ':' + 1
  | [] => rfl
  | c :: cs => by
    have ih := splitColonChars_length cs
    rw [splitColonChars]
    match hm : splitColonChars cs with
    | [] => exact absurd hm (splitColonChars_ne_nil cs)
    | g :: gs =>
      rw [hm] at ih
      by_cases hc : c = ':'
      · subst hc
        simpa [List.count_cons] using ih
      · simpa [List.count_cons, hc] using ih

theorem splitColon_of_parts (salt h : String) (hsalt : ':' ∉ salt.toList)
    (hh : ':' ∉ h.toList) : splitColon (salt ++ ":" ++ h) = [salt, h] := by
  have htl : (salt ++ ":" ++ h).toList = salt.toList ++ ':' :: h.toList := by
    simp [String.toList, String.data_append]
  rw [splitColon, htl, splitColonChars_append _ hsalt, splitColonChars_no_colon hh]
  rfl

theorem verify_password_of_hash (pbkdf2 : String → String → String)
    (pw p salt : String) (hsalt : ':' ∉ salt.toList)
    (hh : ':' ∉ (pbkdf2 p salt).toList) :
    verify_password pbkdf2 pw (hash_password pbkdf2 p salt) =
      (pbkdf2 p salt == pbkdf2 pw salt) := by
  rw [verify_password, hash_password, splitColon_of_parts _ _ hsalt hh]

theorem verify_password_malformed (pbkdf2 : String → String → String)
    (pw : String) {hashed : String} (h : hashed.toList.count ':' ≠ 1) :
    verify_password pbkdf2 pw hashed = false := by
  have hlen : (splitColonChars hashed.toList).length ≠ 2 := by
    rw [splitColonChars_length]
    omega
  rw [verify_password]
  match hm : splitColon hashed with
  | [] => rfl
  | [_] => rfl
  | [a, b] =>
    exfalso
    apply hlen
    have : (splitColon hashed).length = 2 := by rw [hm]; rfl
    simpa [splitColon] using this
  | _ :: _ :: _ :: _ => rfl

/-!  Concrete sample data used by the closed witness statements.  -/

/-- Sample shipper. -/
def alice : User :=
  { id := "u-alice", email := "alice@x.com", name := "Alice", phone := "1",
    role := UserRole.shipper, created_at := 1 }

/-- Sample shipper who owns nothing. -/
def erin : User :=
  { id := "u-erin", email := "erin@x.com", name := "Erin", phone := "4",
    role := UserRole.shipper, created_at := 4 }

/-- Sample driver. -/
def bob : User :=
  { id := "u-bob", email := "bob@x.com", name := "Bob", phone := "2",
    role := UserRole.driver, created_at := 2 }

/-- Second sample driver. -/
def carol : User :=
  { id := "u-carol", email := "carol@x.com", name := "Carol", phone := "3",
    role := UserRole.driver, created_at := 3 }

/-- Sample posted shipment owned by `alice`. -/
def shipA : Shipment :=
  { id := "s1", shipper_id := "u-alice", origin_city := "NY",
    destination_city := "LA", description := "pallets", weight := 2,
    deadline := 30, status := ShipmentStatus.posted, created_at := 5 }

/-- Bid of 700 by `bob` on `shipA`. -/
def bid1 : Bid :=
  { id := "b1", driver_id := "u-bob", shipment_id := "s1", amount := 700,
    created_at := 6 }

/-- Bid of 650 by `carol` on `shipA`. -/
def bid2 : Bid :=
  { id := "b2", driver_id := "u-carol", shipment_id := "s1", amount := 650,
    created_at := 7 }

/-- Sample store: one posted shipment with two pending bids. -/
def sampleDb : Store :=
  { users := [alice, erin, bob, carol], shipments := [shipA],
    bids := [bid1, bid2] }

/-!  Claim C1.  -/

/-- C1: in every state whose bid and shipment identifiers are unique, if a
bid `B` with identifier `bidId` exists, its referenced shipment `S` exists,
and `S`'s owning shipper is the calling shipper, then `accept_bid` succeeds,
`B` (all other fields unchanged) now has status `accepted`, every other bid
on the same shipment has status `rejected`, and `S` (all other fields
unchanged) now has status `bidding_closed`. -/
theorem accept_bid_closes_auction
    (db : Store) (u : User) (bidId : String) (B : Bid) (S : Shipment)
    (hnb : (db.bids.map Bid.id).Nodup)
    (hns : (db.shipments.map Shipment.id).Nodup)
    (hrole : u.role = UserRole.shipper)
    (hB : B ∈ db.bids) (hBid : B.id = bidId)
    (hS : S ∈ db.shipments) (hSid : S.id = B.shipment_id)
    (hown : S.shipper_id = u.id) :
    ∃ db', accept_bid db u bidId = Except.ok ("Bid accepted successfully", db') ∧
      { B with status := BidStatus.accepted } ∈ db'.bids ∧
      (∀ b' ∈ db'.bids, b'.shipment_id = S.id → b'.id ≠ bidId →
        b'.status = BidStatus.rejected) ∧
      { S with status := ShipmentStatus.bidding_closed } ∈ db'.shipments := by
  have hfb : db.bids.find? (fun b => b.id == bidId) = some B :=
    find?_key_eq Bid.id bidId hnb hB hBid
  have hfs : db.shipments.find? (fun s => s.id == B.shipment_id) = some S :=
    find?_key_eq Shipment.id B.shipment_id hns hS hSid
  refine ⟨{ db with
      shipments := updateFirst (fun s => s.id == B.shipment_id)
        (fun s => { s with status := ShipmentStatus.bidding_closed })
        db.shipments,
      bids := (updateFirst (fun b => b.id == bidId)
          (fun b => { b with status := BidStatus.accepted }) db.bids).map
        (fun b =>
          if b.shipment_id == B.shipment_id && b.id != bidId then
            { b with status := BidStatus.rejected }
          else b) }, ?_, ?_, ?_, ?_⟩
  · simp only [accept_bid, hfb, hfs, hrole, hown, ne_eq, not_true_eq_false,
      if_false]
  · show { B with status := BidStatus.accepted } ∈
      (updateFirst (fun b => b.id == bidId)
          (fun b => { b with status := BidStatus.accepted }) db.bids).map
        (fun b =>
          if b.shipment_id == B.shipment_id && b.id != bidId then
            { b with status := BidStatus.rejected }
          else b)
    have hmem : { B with status := BidStatus.accepted } ∈
        updateFirst (fun b => b.id == bidId)
          (fun b => { b with status := BidStatus.accepted }) db.bids := by
      refine mem_updateFirst_of_unique _ _ hB (by simp [hBid]) ?_
      intro y hy hpy
      exact key_eq_of_nodup Bid.id hnb hy hB
        ((beq_iff_eq.mp hpy).trans hBid.symm)
    have himg := List.mem_map_of_mem
      (fun b =>
        if b.shipment_id == B.shipment_id && b.id != bidId then
          { b with status := BidStatus.rejected }
        else b) hmem
    simpa [hBid] using himg
  · intro b' hb' h1 h2
    rcases List.mem_map.mp hb' with ⟨a, _, rfl⟩
    by_cases hcond : (a.shipment_id == B.shipment_id && a.id != bidId) = true
    · rw [if_pos hcond]
    · rw [if_neg hcond] at h1 h2 ⊢
      exfalso
      apply hcond
      have hship : a.shipment_id = B.shipment_id := h1.trans hSid
      simp [hship, h2]
  · show { S with status := ShipmentStatus.bidding_closed } ∈
      updateFirst (fun s => s.id == B.shipment_id)
        (fun s => { s with status := ShipmentStatus.bidding_closed })
        db.shipments
    refine mem_updateFirst_of_unique _ _ hS (by simp [hSid]) ?_
    intro y hy hpy
    exact key_eq_of_nodup Shipment.id hns hy hS
      ((beq_iff_eq.mp hpy).trans hSid.symm)

/-- C1 witness: accepting `bid2` on the sample store succeeds and resolves
the auction. -/
theorem accept_bid_closes_auction_witness :
    ∃ db', accept_bid sampleDb alice "b2" =
        Except.ok ("Bid accepted successfully", db') ∧
      { bid2 with status := BidStatus.accepted } ∈ db'.bids ∧
      (∀ b' ∈ db'.bids, b'.shipment_id = shipA.id → b'.id ≠ "b2" →
        b'.status = BidStatus.rejected) ∧
      { shipA with status := ShipmentStatus.bidding_closed } ∈ db'.shipments :=
  accept_bid_closes_auction sampleDb alice "b2" bid2 shipA (by decide)
    (by decide) (by decide) (by decide) (by decide) (by decide) (by decide)
    (by decide)

/-!  Claims C2 and C3: the missing `BidAlreadyResolved` guard.  -/

/-- Sample store after `bid2` has been accepted: the auction on `shipA` is
already resolved and the shipment is `bidding_closed`. -/
def resolvedDb : Store :=
  { users := [alice, erin, bob, carol],
    shipments := [{ shipA with status := ShipmentStatus.bidding_closed }],
    bids := [{ bid1 with status := BidStatus.rejected },
             { bid2 with status := BidStatus.accepted }] }

/-- C2: the handler checks only existence and ownership, never the bid's
current status, so re-accepting the already-`accepted` bid of an
already-`bidding_closed` shipment succeeds again instead of failing with
`BidAlreadyResolved`.  The first conjunct shows `resolvedDb` is exactly the
state reached by the first `accept_bid` call. -/
theorem accept_bid_reaccept_succeeds :
    accept_bid sampleDb alice "b2" =
      Except.ok ("Bid accepted successfully", resolvedDb) ∧
    accept_bid resolvedDb alice "b2" =
      Except.ok ("Bid accepted successfully", resolvedDb) := by
  decide

/-- C3: `accept_bid` on an already-resolved auction reverses resolved
decisions: starting from the reachable state `resolvedDb` (reached by
accepting `bid2`, first conjunct), accepting `bid1` turns the `rejected`
`bid1` into `accepted` and the `accepted` `bid2` into `rejected`. -/
theorem accept_bid_reverses_resolved :
    accept_bid sampleDb alice "b2" =
      Except.ok ("Bid accepted successfully", resolvedDb) ∧
    accept_bid resolvedDb alice "b1" =
      Except.ok ("Bid accepted successfully",
        { users := [alice, erin, bob, carol],
          shipments := [{ shipA with status := ShipmentStatus.bidding_closed }],
          bids := [{ bid1 with status := BidStatus.accepted },
                   { bid2 with status := BidStatus.rejected }] }) := by
  decide

/-!  Claim C4: error cases of `accept_bid`.  -/

/-- Bid referencing a shipment that is not in the store. -/
def orphanBid : Bid :=
  { id := "b9", driver_id := "u-bob", shipment_id := "s9", amount := 500,
    created_at := 8 }

/-- Store holding `orphanBid`, whose shipment `s9` does not exist. -/
def orphanDb : Store :=
  { users := [alice, erin, bob, carol], shipments := [shipA],
    bids := [bid1, bid2, orphanBid] }

/-- C4 counterexample: when the bid exists but its referenced shipment is
absent, the handler answers the 403 ownership error (`if not shipment_data
or shipment_data["shipper_id"] != current_user.id`), not a 404
`ShipmentNotFound` as the claim states. -/
theorem accept_bid_orphan_returns_403 :
    accept_bid orphanDb alice "b9" =
      Except.error ⟨403, "You can only accept bids on your own shipments"⟩ ∧
    (HTTPError.mk 403 "You can only accept bids on your own shipments").status_code
      ≠ 404 := by
  decide

/-- C4 amended: for a caller with role shipper, `accept_bid` fails with
`BidNotFound` (404) when no bid has the identifier; with the 403 ownership
error when the bid exists but its referenced shipment is absent (the source
merges this data-integrity fallback into the ownership check rather than
answering 404); and with the same 403 ownership error when the shipment
exists but its `shipper_id` differs from the caller — checks in that order,
and every failure occurs before any write, so the store is unchanged. -/
theorem accept_bid_error_cases (db : Store) (u : User) (bidId : String)
    (hrole : u.role = UserRole.shipper) :
    (db.bids.find? (fun b => b.id == bidId) = none →
      accept_bid db u bidId = Except.error ⟨404, "Bid not found"⟩) ∧
    (∀ B, db.bids.find? (fun b => b.id == bidId) = some B →
      db.shipments.find? (fun s => s.id == B.shipment_id) = none →
      accept_bid db u bidId =
        Except.error ⟨403, "You can only accept bids on your own shipments"⟩) ∧
    (∀ B S, db.bids.find? (fun b => b.id == bidId) = some B →
      db.shipments.find? (fun s => s.id == B.shipment_id) = some S →
      S.shipper_id ≠ u.id →
      accept_bid db u bidId =
        Except.error ⟨403, "You can only accept bids on your own shipments"⟩) := by
  refine ⟨fun hfb => ?_, fun B hfb hfs => ?_, fun B S hfb hfs hsh => ?_⟩
  · simp [accept_bid, hrole, hfb]
  · simp [accept_bid, hrole, hfb, hfs]
  · simp [accept_bid, hrole, hfb, hfs, hsh]

/-- C4 witness: on the sample stores, an unknown bid identifier answers 404,
a bid with a missing shipment answers the 403 ownership error, and a
non-owning shipper answers the 403 ownership error. -/
theorem accept_bid_error_cases_witness :
    accept_bid sampleDb alice "zzz" = Except.error ⟨404, "Bid not found"⟩ ∧
    accept_bid orphanDb alice "b9" =
      Except.error ⟨403, "You can only accept bids on your own shipments"⟩ ∧
    accept_bid sampleDb erin "b1" =
      Except.error ⟨403, "You can only accept bids on your own shipments"⟩ :=
  ⟨(accept_bid_error_cases sampleDb alice "zzz" (by decide)).1 (by decide),
   (accept_bid_error_cases orphanDb alice "b9" (by decide)).2.1 orphanBid
     (by decide) (by decide),
   (accept_bid_error_cases sampleDb erin "b1" (by decide)).2.2 bid1 shipA
     (by decide) (by decide) (by decide)⟩

/-!  Claim C5: create_bid preconditions and success.  -/

/-- C5: for a caller with role driver, `create_bid` checks its
preconditions in order — shipment exists (404 `ShipmentNotFound`), shipment
status exactly `posted` (400 `ShipmentNotOpen`), no existing bid by this
driver on this shipment regardless of its amount or message (400
`DuplicateBid`) — and otherwise stores a new bid with the fresh identifier,
status `pending` and the server timestamp.  Every failure occurs before the
insert, so the store is unchanged on failure. -/
theorem create_bid_spec (db : Store) (u : User) (bd : BidCreate)
    (fid : String) (now : Nat) (hrole : u.role = UserRole.driver) :
    (db.shipments.find? (fun s => s.id == bd.shipment_id) = none →
      create_bid db u bd fid now = Except.error ⟨404, "Shipment not found"⟩) ∧
    (∀ S, db.shipments.find? (fun s => s.id == bd.shipment_id) = some S →
      S.status ≠ ShipmentStatus.posted →
      create_bid db u bd fid now =
        Except.error ⟨400, "Shipment is not open for bidding"⟩) ∧
    (∀ S, db.shipments.find? (fun s => s.id == bd.shipment_id) = some S →
      S.status = ShipmentStatus.posted →
      (∃ b0 ∈ db.bids, b0.driver_id = u.id ∧ b0.shipment_id = bd.shipment_id) →
      create_bid db u bd fid now =
        Except.error ⟨400, "You have already placed a bid on this shipment"⟩) ∧
    (∀ S, db.shipments.find? (fun s => s.id == bd.shipment_id) = some S →
      S.status = ShipmentStatus.posted →
      (∀ b0 ∈ db.bids,
        ¬(b0.driver_id = u.id ∧ b0.shipment_id = bd.shipment_id)) →
      create_bid db u bd fid now = Except.ok
        ({ id := fid, driver_id := u.id, shipment_id := bd.shipment_id,
           amount := bd.amount, message := bd.message,
           status := BidStatus.pending, created_at := now },
         { db with bids := db.bids ++
            [{ id := fid, driver_id := u.id, shipment_id := bd.shipment_id,
               amount := bd.amount, message := bd.message,
               status := BidStatus.pending, created_at := now }] })) := by
  refine ⟨fun hfs => ?_, fun S hfs hst => ?_, fun S hfs hst hdup => ?_,
    fun S hfs hst hnone => ?_⟩
  · simp [create_bid, hrole, hfs]
  · simp [create_bid, hrole, hfs, hst]
  · obtain ⟨b0, hb0, hdrv, hshp⟩ := hdup
    have hne : db.bids.find? (fun b =>
        b.driver_id == u.id && b.shipment_id == bd.shipment_id) ≠ none := by
      intro hno
      rw [List.find?_eq_none] at hno
      exact hno b0 hb0 (by simp [hdrv, hshp])
    obtain ⟨y, hy⟩ := Option.ne_none_iff_exists'.mp hne
    simp [create_bid, hrole, hfs, hst, hy]
  · have hfind : db.bids.find? (fun b =>
        b.driver_id == u.id && b.shipment_id == bd.shipment_id) = none := by
      rw [List.find?_eq_none]
      intro b0 hb0
      have := hnone b0 hb0
      simp only [not_and] at this
      by_cases hd : b0.driver_id = u.id
      · simp [hd, this hd]
      · simp [hd]
    simp [create_bid, hrole, hfs, hst, hfind]

/-- Sample driver with no bid in `sampleDb`. -/
def dave : User :=
  { id := "u-dave", email := "dave@x.com", name := "Dave", phone := "5",
    role := UserRole.driver, created_at := 4 }

/-- Closed shipment owned by `alice`, for the `ShipmentNotOpen` case. -/
def shipClosed : Shipment :=
  { id := "s2", shipper_id := "u-alice", origin_city := "SF",
    destination_city := "SE", description := "crates", weight := 1,
    deadline := 40, status := ShipmentStatus.bidding_closed, created_at := 9 }

/-- Store with one posted and one closed shipment for the C5 witness. -/
def bidDb : Store :=
  { users := [alice, erin, bob, carol, dave],
    shipments := [shipA, shipClosed], bids := [bid1, bid2] }

/-- C5 witness: an unknown shipment answers 404; a closed shipment answers
400; a second bid by `bob` on `s1` with a different amount and message
answers 400 `DuplicateBid`; a first bid by `dave` on `s1` succeeds and is
stored `pending`. -/
theorem create_bid_spec_witness :
    create_bid bidDb dave ⟨"s0", 600, none⟩ "b3" 10 =
      Except.error ⟨404, "Shipment not found"⟩ ∧
    create_bid bidDb dave ⟨"s2", 600, none⟩ "b3" 10 =
      Except.error ⟨400, "Shipment is not open for bidding"⟩ ∧
    create_bid bidDb bob ⟨"s1", 999, some "hi"⟩ "b3" 10 =
      Except.error ⟨400, "You have already placed a bid on this shipment"⟩ ∧
    create_bid bidDb dave ⟨"s1", 600, none⟩ "b3" 10 = Except.ok
      ({ id := "b3", driver_id := "u-dave", shipment_id := "s1", amount := 600,
         message := none, status := BidStatus.pending, created_at := 10 },
       { bidDb with bids := bidDb.bids ++
          [{ id := "b3", driver_id := "u-dave", shipment_id := "s1",
             amount := 600, message := none, status := BidStatus.pending,
             created_at := 10 }] }) :=
  ⟨(create_bid_spec bidDb dave ⟨"s0", 600, none⟩ "b3" 10 (by decide)).1
      (by decide),
   (create_bid_spec bidDb dave ⟨"s2", 600, none⟩ "b3" 10 (by decide)).2.1
      shipClosed (by decide) (by decide),
   (create_bid_spec bidDb bob ⟨"s1", 999, some "hi"⟩ "b3" 10 (by decide)).2.2.1
      shipA (by decide) (by decide) ⟨bid1, by decide, by decide, by decide⟩,
   (create_bid_spec bidDb dave ⟨"s1", 600, none⟩ "b3" 10 (by decide)).2.2.2
      shipA (by decide) (by decide) (by decide)⟩

/-!  Claim C6: role gating of the mutating handlers.  -/

/-- C6: each mutating handler answers its role-check 403 exactly when the
caller's role differs from the required one — `create_shipment` and
`accept_bid` require `shipper`, `create_bid` requires `driver` — and the
check runs first, before any lookup or write, for every store (the store is
universally quantified and unchanged, a failure carrying no store).  The
public listing `get_shipments` takes no credentials at all: its arguments
are only the store and the optional filter. -/
theorem role_gate_spec (db : Store) (u : User) :
    (∀ sd fid now, create_shipment db u sd fid now =
        Except.error ⟨403, "Only shippers can create shipments"⟩ ↔
      u.role ≠ UserRole.shipper) ∧
    (∀ bd fid now, create_bid db u bd fid now =
        Except.error ⟨403, "Only drivers can place bids"⟩ ↔
      u.role ≠ UserRole.driver) ∧
    (∀ bidId, accept_bid db u bidId =
        Except.error ⟨403, "Only shippers can accept bids"⟩ ↔
      u.role ≠ UserRole.shipper) := by
  refine ⟨fun sd fid now => ⟨fun h hr => ?_, fun h => by simp [create_shipment, h]⟩,
    fun bd fid now => ⟨fun h hr => ?_, fun h => by simp [create_bid, h]⟩,
    fun bidId => ⟨fun h hr => ?_, fun h => by simp [accept_bid, h]⟩⟩
  · simp [create_shipment, hr] at h
  · rcases hfs : db.shipments.find? (fun s => s.id == bd.shipment_id) with _ | S
    · simp [create_bid, hr, hfs] at h
    · by_cases hst : S.status = ShipmentStatus.posted
      · rcases hfb : db.bids.find? (fun b =>
            b.driver_id == u.id && b.shipment_id == bd.shipment_id) with _ | y
        · simp [create_bid, hr, hfs, hst, hfb] at h
        · simp [create_bid, hr, hfs, hst, hfb] at h
      · simp [create_bid, hr, hfs, hst] at h
  · rcases hfb : db.bids.find? (fun b => b.id == bidId) with _ | B
    · simp [accept_bid, hr, hfb] at h
    · rcases hfs : db.shipments.find? (fun s => s.id == B.shipment_id) with _ | S
      · simp [accept_bid, hr, hfb, hfs] at h
      · by_cases hsh : S.shipper_id = u.id
        · simp [accept_bid, hr, hfb, hfs, hsh] at h
        · simp [accept_bid, hr, hfb, hfs, hsh] at h

/-- C6 witness: on the sample store, the driver `bob` is refused by
`create_shipment` and `accept_bid`, the shipper `alice` is refused by
`create_bid`, and callers of the required role are not refused by the role
check. -/
theorem role_gate_spec_witness :
    (create_shipment sampleDb bob ⟨"NY", "LA", "x", 1, 30, none⟩ "s3" 11 =
        Except.error ⟨403, "Only shippers can create shipments"⟩ ↔
      bob.role ≠ UserRole.shipper) ∧
    (create_bid sampleDb alice ⟨"s1", 500, none⟩ "b4" 11 =
        Except.error ⟨403, "Only drivers can place bids"⟩ ↔
      alice.role ≠ UserRole.driver) ∧
    (accept_bid sampleDb bob "b1" =
        Except.error ⟨403, "Only shippers can accept bids"⟩ ↔
      bob.role ≠ UserRole.shipper) :=
  ⟨(role_gate_spec sampleDb bob).1 ⟨"NY", "LA", "x", 1, 30, none⟩ "s3" 11,
   (role_gate_spec sampleDb alice).2.1 ⟨"s1", 500, none⟩ "b4" 11,
   (role_gate_spec sampleDb bob).2.2 "b1"⟩

/-!  Claim C7: login behaviour.  -/

/-- C7: for any key-derivation function, if the store holds a user whose
credential was produced by `hash_password` from password `p` and a salt
(salt and derived hash free of `:`, as `token_hex` and `.hex()` output
always are), then login with that email and `p` succeeds and returns the
profile (`UserResponse`, a record with no credential field); login fails
with 401 `Invalid credentials` for every email no user has, and for every
password whose derived hash under the stored salt differs from the stored
hash — in particular for every password other than `p`, as the claim's
reading of collision-free derivation. -/
theorem login_spec (pbkdf2 : String → String → String) (db : Store)
    (email p salt : String) (u : User)
    (hnd : (db.users.map User.email).Nodup)
    (hu : u ∈ db.users) (he : u.email = email)
    (hcred : u.password_hash = some (hash_password pbkdf2 p salt))
    (hsalt : ':' ∉ salt.toList) (hh : ':' ∉ (pbkdf2 p salt).toList) :
    login_user db pbkdf2 email p =
      Except.ok ("Login successful", UserResponse.of u) ∧
    (∀ e2, (∀ v ∈ db.users, v.email ≠ e2) → ∀ q,
      login_user db pbkdf2 e2 q = Except.error ⟨401, "Invalid credentials"⟩) ∧
    (∀ q, pbkdf2 q salt ≠ pbkdf2 p salt →
      login_user db pbkdf2 email q =
        Except.error ⟨401, "Invalid credentials"⟩) := by
  have hfind : db.users.find? (fun v => v.email == email) = some u :=
    find?_key_eq User.email email hnd hu he
  refine ⟨?_, fun e2 hno q => ?_, fun q hq => ?_⟩
  · simp [login_user, hfind, verify_stored, hcred,
      verify_password_of_hash pbkdf2 p p salt hsalt hh]
  · have hnone : db.users.find? (fun v => v.email == e2) = none := by
      rw [List.find?_eq_none]
      intro v hv
      simp [hno v hv]
    simp [login_user, hnone]
  · have hver : verify_password pbkdf2 q (hash_password pbkdf2 p salt) = false := by
      rw [verify_password_of_hash pbkdf2 q p salt hsalt hh]
      simpa using fun hx => hq hx.symm
    simp [login_user, hfind, verify_stored, hcred, hver]

/-- Concrete key-derivation function for witnesses: prepend `h` and append
the salt; its output never contains `:`, and the derived hashes used below
are pairwise distinct. -/
def wkdf (pw s : String) : String := "h" ++ pw ++ s

/-- Registered sample user whose credential was derived from password `pw1`
with salt `s9salt`. -/
def regUser : User :=
  { id := "u9", email := "a@x.com", name := "A", phone := "0",
    role := UserRole.shipper,
    password_hash := some (hash_password wkdf "pw1" "s9salt"),
    created_at := 1 }

/-- Store holding only `regUser`. -/
def loginDb : Store := { users := [regUser], shipments := [], bids := [] }

/-- C7 witness: on the concrete store, login with the registered password
succeeds and returns the credential-free profile, an unknown email answers
401, and a different password answers 401. -/
theorem login_spec_witness :
    login_user loginDb wkdf "a@x.com" "pw1" =
      Except.ok ("Login successful", UserResponse.of regUser) ∧
    login_user loginDb wkdf "zz@x.com" "pw1" =
      Except.error ⟨401, "Invalid credentials"⟩ ∧
    login_user loginDb wkdf "a@x.com" "pw2" =
      Except.error ⟨401, "Invalid credentials"⟩ :=
  ⟨(login_spec wkdf loginDb "a@x.com" "pw1" "s9salt" regUser (by decide)
      (by decide) (by decide) (by decide) (by decide) (by decide)).1,
   (login_spec wkdf loginDb "a@x.com" "pw1" "s9salt" regUser (by decide)
      (by decide) (by decide) (by decide) (by decide) (by decide)).2.1
      "zz@x.com" (by decide) "pw1",
   (login_spec wkdf loginDb "a@x.com" "pw1" "s9salt" regUser (by decide)
      (by decide) (by decide) (by decide) (by decide) (by decide)).2.2
      "pw2" (by decide)⟩

/-!  Claim C8: the public shipment listing.  -/

/-- C8: for every store contents, the public listing is ordered by creation
timestamp descending (every earlier element's timestamp is at least every
later one's), holds at most 100 results, and under a status filter contains
only shipments of that status. -/
theorem get_shipments_spec (db : Store) (filt : Option ShipmentStatus) :
    (get_shipments db filt).length ≤ 100 ∧
    (get_shipments db filt).Pairwise createdDesc ∧
    (∀ st, filt = some st → ∀ s ∈ get_shipments db filt,
      s.status = st) := by
  refine ⟨List.length_take_le _ _, ?_, fun st hf s hs => ?_⟩
  · exact ((List.sorted_insertionSort createdDesc _).sublist
      (List.take_sublist _ _))
  · have hs' : s ∈ (db.shipments.filter fun x =>
        match filt with
        | none => true
        | some st => x.status == st) := by
      have := (List.take_sublist 100 _).subset hs
      exact (List.mem_insertionSort createdDesc).mp this
    have hq := (List.mem_filter.mp hs').2
    rw [hf] at hq
    exact beq_iff_eq.mp hq

/-- C8 witness: listing the sample store filtered to `posted` is capped,
descending, and filtered. -/
theorem get_shipments_spec_witness :
    (get_shipments bidDb (some ShipmentStatus.posted)).length ≤ 100 ∧
    (get_shipments bidDb (some ShipmentStatus.posted)).Pairwise createdDesc ∧
    ∀ s ∈ get_shipments bidDb (some ShipmentStatus.posted),
      s.status = ShipmentStatus.posted :=
  ⟨(get_shipments_spec bidDb (some ShipmentStatus.posted)).1,
   (get_shipments_spec bidDb (some ShipmentStatus.posted)).2.1,
   (get_shipments_spec bidDb (some ShipmentStatus.posted)).2.2
     ShipmentStatus.posted rfl⟩

/-!  Claim C9: fetching one shipment with its bids.  -/

/-- Store with 101 identical bids on `shipA`, exhibiting the truncation of
the returned bid list. -/
def manyBidsDb : Store :=
  { users := [], shipments := [shipA], bids := List.replicate 101 bid1 }

/-- C9: fetching an absent shipment answers 404; fetching a present one
returns it with its bids ordered by amount ascending, `bid_count` equal to
the length of the returned list, and the list truncated to at most 100
bids; and there is a store (101 bids on one shipment) where `bid_count`
understates the true number of stored bids for the shipment. -/
theorem get_shipment_spec (db : Store) (sid : String) :
    (db.shipments.find? (fun s => s.id == sid) = none →
      get_shipment db sid = Except.error ⟨404, "Shipment not found"⟩) ∧
    (∀ S, db.shipments.find? (fun s => s.id == sid) = some S →
      ∃ r, get_shipment db sid = Except.ok r ∧ r.shipment = S ∧
        r.bids.Pairwise amountAsc ∧ r.bid_count = r.bids.length ∧
        r.bids.length ≤ 100 ∧ ∀ b ∈ r.bids, b.shipment_id = sid) ∧
    (∃ db2 sid2 r2, get_shipment db2 sid2 = Except.ok r2 ∧
      r2.bid_count <
        (db2.bids.filter (fun b => b.shipment_id == sid2)).length) := by
  refine ⟨fun hno => by simp [get_shipment, hno], fun S hS => ?_, ?_⟩
  · refine ⟨⟨S, ((db.bids.filter (fun b => b.shipment_id == sid)).insertionSort
          amountAsc).take 100,
        (((db.bids.filter (fun b => b.shipment_id == sid)).insertionSort
          amountAsc).take 100).length⟩,
      by simp only [get_shipment, hS], rfl, ?_, rfl, List.length_take_le _ _,
      fun b hb => ?_⟩
    · exact ((List.sorted_insertionSort amountAsc _).sublist
        (List.take_sublist _ _))
    · have hb' : b ∈ db.bids.filter (fun x => x.shipment_id == sid) := by
        have := (List.take_sublist 100 _).subset hb
        exact (List.mem_insertionSort amountAsc).mp this
      exact beq_iff_eq.mp (List.mem_filter.mp hb').2
  · refine ⟨manyBidsDb, "s1", ⟨shipA, List.replicate 100 bid1, 100⟩, ?_, ?_⟩
    · rfl
    · decide

/-- C9 witness: on the sample store, an unknown identifier answers 404 and
fetching `s1` returns the shipment with its bids sorted by amount. -/
theorem get_shipment_spec_witness :
    get_shipment bidDb "s0" = Except.error ⟨404, "Shipment not found"⟩ ∧
    (∃ r, get_shipment bidDb "s1" = Except.ok r ∧ r.shipment = shipA ∧
      r.bids.Pairwise amountAsc ∧ r.bid_count = r.bids.length ∧
      r.bids.length ≤ 100 ∧ ∀ b ∈ r.bids, b.shipment_id = "s1") :=
  ⟨(get_shipment_spec bidDb "s0").1 (by decide),
   (get_shipment_spec bidDb "s1").2.1 shipA (by decide)⟩

/-!  Claim C10: verify_password is total on malformed credentials.  -/

/-- C10: `verify_password` is a total function (it is defined for every
password and stored-credential string) and returns `false` whenever the
stored credential does not consist of exactly one `:`-separated salt/hash
pair — no colon or more than one colon, i.e. colon count different from
one; consequently `login_user` and the per-request basic-auth check
`get_current_user` answer 401 `Invalid credentials` for a user whose stored
credential is malformed (or absent), rather than erroring. -/
theorem verify_password_total_spec (pbkdf2 : String → String → String)
    (pw : String) :
    (∀ hashed : String, hashed.toList.count ':' ≠ 1 →
      verify_password pbkdf2 pw hashed = false) ∧
    (∀ db : Store, ∀ email : String, ∀ u : User,
      (db.users.map User.email).Nodup → u ∈ db.users → u.email = email →
      Option.all (fun h0 => h0.toList.count ':' != 1) u.password_hash = true →
      login_user db pbkdf2 email pw =
          Except.error ⟨401, "Invalid credentials"⟩ ∧
        get_current_user db pbkdf2 email pw =
          Except.error ⟨401, "Invalid credentials"⟩) := by
  refine ⟨fun hashed hcnt => verify_password_malformed pbkdf2 pw hcnt,
    fun db email u hnd hu he hbad => ?_⟩
  have hfind : db.users.find? (fun v => v.email == email) = some u :=
    find?_key_eq User.email email hnd hu he
  have hver : verify_stored pbkdf2 pw u.password_hash = false := by
    rcases hph : u.password_hash with _ | h0
    · rfl
    · rw [hph] at hbad
      simp only [Option.all_some, bne_iff_ne, ne_eq, decide_not] at hbad
      exact verify_password_malformed pbkdf2 pw
        (by simpa using hbad)
  constructor
  · simp [login_user, hfind, hver]
  · simp [get_current_user, hfind, hver]

/-- User whose stored credential `a:b:c` has two colons and cannot be split
into a salt/hash pair. -/
def badUser : User :=
  { id := "u8", email := "m@x.com", name := "M", phone := "0",
    role := UserRole.driver, password_hash := some "a:b:c", created_at := 1 }

/-- Store holding only `badUser`. -/
def badCredDb : Store := { users := [badUser], shipments := [], bids := [] }

/-- C10 witness: a credential without a colon verifies to `false`, one with
two colons verifies to `false`, and both login and the basic-auth check on
the store with the malformed credential answer 401. -/
theorem verify_password_total_spec_witness :
    verify_password wkdf "x" "nocolon" = false ∧
    verify_password wkdf "x" "a:b:c" = false ∧
    login_user badCredDb wkdf "m@x.com" "x" =
      Except.error ⟨401, "Invalid credentials"⟩ ∧
    get_current_user badCredDb wkdf "m@x.com" "x" =
      Except.error ⟨401, "Invalid credentials"⟩ :=
  ⟨(verify_password_total_spec wkdf "x").1 "nocolon" (by decide),
   (verify_password_total_spec wkdf "x").1 "a:b:c" (by decide),
   ((verify_password_total_spec wkdf "x").2 badCredDb "m@x.com" badUser
     (by decide) (by decide) (by decide) (by decide)).1,
   ((verify_password_total_spec wkdf "x").2 badCredDb "m@x.com" badUser
     (by decide) (by decide) (by decide) (by decide)).2⟩

end Bid2Ship
